import Mathlib

/-!
Verification of the query-orchestration core of the AI knowledge assistant
(`src/backend`): cache-key derivation and admission policy (cache_service.py),
fixed-window rate limiting (cache_service.py), tenant-isolated vector retrieval
(vector_store.py), token chunking (llm_service.py), and the orchestrator
(main.py, `query_knowledge_base`).

Modelling conventions:
* Python strings are `String`, lists are `List`, dicts of fixed shape are
  structures, floats that only feed comparisons are `ℚ` (all comparisons in
  the source involve decimal literals whose float comparisons agree with the
  exact rational ones at every input the theorems use; the one delicate spot,
  `chunk_size * 0.7` in llm_service.py, is discussed at `sentence_trim`).
* Redis is an explicit store: a list of key/value/deadline entries, newest
  first, together with the current time `now : ℕ` (seconds).  `SETEX`,
  `GET`, `INCR` and `EXPIRE` are the evident operations on it.
* The Qdrant index is a `SimilarityIndex`: a set of collection names plus an
  uninterpreted query function returning scored points.
* `hashlib.sha256(...).hexdigest()` is an uninterpreted parameter
  `digest : String → String`; every theorem about cache keys holds for an
  arbitrary digest (the source's digest is deterministic, which is all the
  claims rely on).
* Raised exceptions are `Except.error`; `SecurityException` carries its
  message string.
-/

/-- `Settings` from config.py (the fields the core reads), with the
declared defaults. -/
structure Settings where
  chunk_size : Nat := 500
  chunk_overlap : Nat := 50
  top_k_chunks : Nat := 5
  similarity_threshold : ℚ := 7/10
  queries_per_minute : Nat := 10
  cache_ttl_seconds : Nat := 3600

/-- The process-wide `settings = Settings()` instance (config.py line 40). -/
def settings : Settings := {}

/-! ## Cache service (cache_service.py) -/

/-- Python's `sub in s` substring test on strings. -/
def strIn (sub s : String) : Bool :=
  s.data.tails.any (fun t => sub.data.isPrefixOf t)

/-- The pre-hash concatenation built by `CacheService._generate_cache_key`
(cache_service.py line 35):
`f"{tenant_id}:{question}:{':'.join(sorted(chunk_ids))}"`. -/
def cacheKeyContent (tenant_id question : String) (chunk_ids : List String) : String :=
  tenant_id ++ ":" ++ question ++ ":" ++
    String.intercalate ":" (chunk_ids.mergeSort (fun a b => a ≤ b))

/-- `CacheService._generate_cache_key` (cache_service.py lines 28-37),
with the SHA-256 hex digest as an uninterpreted parameter `digest`. -/
def generate_cache_key (digest : String → String)
    (tenant_id question : String) (chunk_ids : List String) : String :=
  "cache:llm:" ++ digest (cacheKeyContent tenant_id question chunk_ids)

/-- A cached LLM response: the JSON dict produced by `generate_answer` /
the insufficient-context literal in main.py (after `_tokens` is popped). -/
structure ResponseDict where
  answer : Option String
  sources : List (String × String)
  confidence : ℚ
  insufficient_context : Bool
deriving DecidableEq

/-- The Redis keyspace used by the response cache: entries
`(key, value, deadline)`, newest first; an entry is live at time `now`
iff `now < deadline`. -/
def CacheStore : Type := List (String × ResponseDict × Nat)

/-- Redis `GET` against a `CacheStore` at time `now`. -/
def redisGet (now : Nat) : CacheStore → String → Option ResponseDict
  | [], _ => none
  | (k, v, d) :: rest, key =>
    if k = key then (if now < d then some v else none) else redisGet now rest key

/-- `CacheService.get_cached_response` (cache_service.py lines 39-51). -/
def get_cached_response (now : Nat) (digest : String → String) (st : CacheStore)
    (tenant_id question : String) (chunk_ids : List String) : Option ResponseDict :=
  redisGet now st (generate_cache_key digest tenant_id question chunk_ids)

/-- The fixed keyword lists of `CacheService.cache_response`
(cache_service.py lines 70-71). -/
def time_keywords : List String := ["today", "now", "current", "latest", "deadline"]

def personal_keywords : List String := ["my", "i ", "me ", "mine"]

/-- Python's `str.lower` (character-wise lowercasing; identical to CPython on
the ASCII questions the policy inspects). -/
def strLower (s : String) : String := String.mk (s.data.map Char.toLower)

/-- The keyword admission test of `cache_response` (cache_service.py line 74):
`any(kw in question_lower for kw in time_keywords + personal_keywords)`. -/
def keywordHit (question : String) : Bool :=
  let question_lower := strLower question
  (time_keywords ++ personal_keywords).any (fun kw => strIn kw question_lower)

/-- `CacheService.cache_response` (cache_service.py lines 53-84).  Returns the
new store; the early `return`s are the admission policy.  `ttl = none` models
the Python default `ttl=None`; `ttl or settings.cache_ttl_seconds` treats `0`
as falsy, hence the inner `if`. -/
def cache_response (now : Nat) (digest : String → String) (st : CacheStore)
    (tenant_id question : String) (chunk_ids : List String)
    (response : ResponseDict) (ttl : Option Nat) : CacheStore :=
  if response.confidence < 7/10 then st
  else if response.insufficient_context then st
  else if keywordHit question then st
  else
    let key := generate_cache_key digest tenant_id question chunk_ids
    let t := match ttl with
      | none => settings.cache_ttl_seconds
      | some v => if v = 0 then settings.cache_ttl_seconds else v
    (key, response, now + t) :: st

/-! ## Rate limiter (cache_service.py lines 86-106) -/

/-- The Redis keyspace used by the rate limiter: counter entries
`(key, count, deadline?)`; `none` means no expiry set. -/
def RlStore : Type := List (String × Nat × Option Nat)

/-- Redis `INCR` at time `now`: an expired entry counts as absent and is
re-created at 1 with no expiry. -/
def rlIncr (now : Nat) (key : String) : RlStore → Nat × RlStore
  | [] => (1, [(key, 1, none)])
  | (k, c, dl) :: rest =>
    if k = key then
      match dl with
      | some d =>
        if d ≤ now then (1, (key, 1, none) :: rest)
        else (c + 1, (key, c + 1, some d) :: rest)
      | none => (c + 1, (key, c + 1, none) :: rest)
    else
      let r := rlIncr now key rest
      (r.1, (k, c, dl) :: r.2)

/-- Redis `EXPIRE key secs` at time `now` (no-op on a missing key). -/
def rlExpire (now secs : Nat) (key : String) : RlStore → RlStore
  | [] => []
  | (k, c, dl) :: rest =>
    if k = key then (k, c, some (now + secs)) :: rest
    else (k, c, dl) :: rlExpire now secs key rest

/-- The rate-limit counter key
`f"ratelimit:{tenant_id}:{operation}:{current_minute}"`
(cache_service.py line 94). -/
def rlKey (tenant_id operation : String) (current_minute : Nat) : String :=
  "ratelimit:" ++ tenant_id ++ ":" ++ operation ++ ":" ++ Nat.repr current_minute

/-- `CacheService.check_rate_limit` (cache_service.py lines 86-106), at time
`now` (seconds): increment the window counter, set its expiry to 60 s iff the
increment created it, and allow iff the post-increment count does not exceed
`limit` (= `settings.queries_per_minute` at the call site). -/
def check_rate_limit (now limit : Nat) (st : RlStore)
    (tenant_id operation : String) : Bool × RlStore :=
  let current_minute := now / 60
  let key := rlKey tenant_id operation current_minute
  let r := rlIncr now key st
  let count := r.1
  let st2 := if count = 1 then rlExpire now 60 key r.2 else r.2
  (decide (count ≤ limit), st2)

/-- A sequence of `check_rate_limit` calls at the given times (same tenant and
operation), threading the store; returns the list of allow/deny results. -/
def rlRun (limit : Nat) (tenant_id operation : String) :
    List Nat → RlStore → List Bool × RlStore
  | [], st => ([], st)
  | t :: ts, st =>
    let r := check_rate_limit t limit st tenant_id operation
    let rest := rlRun limit tenant_id operation ts r.2
    (r.1 :: rest.1, rest.2)

/-! ## Vector store (vector_store.py) -/

/-- `VectorStore._get_collection_name` (vector_store.py lines 18-22):
`tenant_id.replace('-', '')[:16]` wrapped as `f"tenant_{clean_id}_documents"`. -/
def get_collection_name (tenant_id : String) : String :=
  let clean_id := String.mk ((tenant_id.data.filter (fun c => c ≠ '-')).take 16)
  "tenant_" ++ clean_id ++ "_documents"

/-- A scored point returned by the Qdrant client's `search`: the payload
fields the loop reads, plus the similarity score.  `tenant_id` is accessed
via `payload.get('tenant_id')`, so it is optional. -/
structure ScoredPoint where
  tenant_id : Option String
  document_id : String
  document_name : String
  chunk_text : String
  chunk_index : Nat
  score : ℚ
deriving DecidableEq

/-- The chunk dict `VectorStore.search` appends per validated result
(vector_store.py lines 120-126). -/
structure SearchChunk where
  document_id : String
  document_name : String
  chunk_text : String
  chunk_index : Nat
  score : ℚ
deriving DecidableEq

def toSearchChunk (r : ScoredPoint) : SearchChunk :=
  { document_id := r.document_id
    document_name := r.document_name
    chunk_text := r.chunk_text
    chunk_index := r.chunk_index
    score := r.score }

/-- The validation loop of `VectorStore.search` (vector_store.py lines
113-128): raise `SecurityException` at the first result whose stored
`tenant_id` differs from the requesting tenant, else collect the chunks. -/
def searchLoop (tenant_id : String) : List ScoredPoint → Except String (List SearchChunk)
  | [] => .ok []
  | r :: rest =>
    if r.tenant_id ≠ some tenant_id then
      .error ("Tenant isolation violation detected")
    else
      match searchLoop tenant_id rest with
      | .ok chunks => .ok (toSearchChunk r :: chunks)
      | .error e => .error e

/-- The similarity index (Qdrant) as the vector store sees it: the existing
collection names, and the filtered nearest-neighbour query
`(collection_name, query_vector, limit, score_threshold) ↦ results`.
The query function is uninterpreted: the theorems hold for every index. -/
structure SimilarityIndex where
  collections : List String
  query : String → List ℚ → Nat → ℚ → List ScoredPoint

/-- `VectorStore.search` (vector_store.py lines 80-128): empty result for a
missing collection, otherwise the tenant-validation loop over the index's
results. -/
def VectorStore.search (idx : SimilarityIndex) (tenant_id : String)
    (query_vector : List ℚ) (top_k : Nat) (score_threshold : ℚ) :
    Except String (List SearchChunk) :=
  let collection_name := get_collection_name tenant_id
  if collection_name ∈ idx.collections then
    searchLoop tenant_id (idx.query collection_name query_vector top_k score_threshold)
  else
    .ok []

/-! ## Chunker (llm_service.py lines 20-44) -/

/-- Python `s.rfind(c)` on the character list of a string: the index of the
last occurrence, if any (`-1` in Python becomes `none`). -/
def rfindIdx (l : List Char) (c : Char) : Option Nat :=
  match l.reverse.findIdx? (fun x => x = c) with
  | none => none
  | some j => some (l.length - 1 - j)

/-- The sentence-boundary trim of `LLMService.chunk_text` (llm_service.py
lines 34-36): `last_period = chunk_text.rfind('.')`, and truncate to
`chunk_text[:last_period + 1]` iff `last_period > chunk_size * 0.7`.

The source compares a character index against the float `chunk_size * 0.7`;
here the comparison is the exact `10 * last_period > 7 * chunk_size`.  For
the configured `chunk_size = 500` the IEEE-754 product `500 * 0.7` rounds to
exactly `350.0` (the true product is `350 - 200/2^53`, within half an ulp of
`350`), so the two conditions agree at every index. -/
def sentence_trim (chunk_size : Nat) (chunk_text : String) : String :=
  match rfindIdx chunk_text.data '.' with
  | none => chunk_text
  | some last_period =>
    if 10 * last_period > 7 * chunk_size then
      String.mk (chunk_text.data.take (last_period + 1))
    else
      chunk_text

/-- A chunk dict produced by `LLMService.chunk_text` (llm_service.py lines
38-42). -/
structure Chunk where
  text : String
  index : Nat
  token_count : Nat
deriving DecidableEq

/-- `LLMService.chunk_text` (llm_service.py lines 20-44), over the token
sequence `tokens = tokenizer.encode(text)`, with the tokenizer's `decode` as
an uninterpreted parameter.  Window `w` starts at `i = w * step` for
`step = chunk_size - chunk_overlap` (the Python loop
`for i in range(0, len(tokens), step)` runs `⌈len/step⌉` times); the trim is
attempted only when `i + chunk_size < len(tokens)`; `token_count` is the
untrimmed window length. -/
def chunk_text (decode : List Nat → String) (tokens : List Nat) : List Chunk :=
  let chunk_size := settings.chunk_size
  let step := chunk_size - settings.chunk_overlap
  (List.range ((tokens.length + step - 1) / step)).map (fun w =>
    let i := w * step
    let chunk_tokens := (tokens.drop i).take chunk_size
    let ctext := decode chunk_tokens
    let text :=
      if i + chunk_size < tokens.length then sentence_trim chunk_size ctext
      else ctext
    { text := text, index := w, token_count := chunk_tokens.length })

/-! ## Orchestrator (main.py, `query_knowledge_base`, lines 199-316) -/

/-- The terminal `QueryResponse` body (main.py lines 42-49), minus the
wall-clock `processing_time_ms` (external timing, carried unchanged). -/
structure QueryResponse where
  answer : Option String
  sources : List (String × String)
  confidence : ℚ
  insufficient_context : Bool
  cached : Bool
deriving DecidableEq

/-- How a query terminates: HTTP 429 on rate-limit rejection, HTTP 500 after
the audit log on a `SecurityException` from retrieval, or a normal response. -/
inductive QueryOutcome where
  | throttled : QueryOutcome
  | securityViolation : String → QueryOutcome
  | success : QueryResponse → QueryOutcome
deriving DecidableEq

/-- `query_knowledge_base` (main.py lines 199-316) over explicit
collaborators: `digest` (SHA-256), `idx` (Qdrant), `embed`
(`llm_service.embed_text`), `synth` (`llm_service.generate_answer`, taking
question, tenant name and the retrieved chunks), the rate-limiter store and
the cache store.  Returns the outcome and the two updated stores.  Database
logging is fire-and-forget and carries no state here. -/
def query_knowledge_base (now : Nat) (digest : String → String)
    (idx : SimilarityIndex) (embed : String → List ℚ)
    (synth : String → String → List SearchChunk → ResponseDict)
    (rlSt : RlStore) (cacheSt : CacheStore)
    (tenant_id tenant_name question : String) :
    QueryOutcome × RlStore × CacheStore :=
  let rl := check_rate_limit now settings.queries_per_minute rlSt tenant_id "query"
  if !rl.1 then (.throttled, rl.2, cacheSt)
  else
    let question_embedding := embed question
    match VectorStore.search idx tenant_id question_embedding
        settings.top_k_chunks settings.similarity_threshold with
    | .error e => (.securityViolation e, rl.2, cacheSt)
    | .ok chunks =>
      let chunk_ids := chunks.map (fun c => c.document_id)
      match get_cached_response now digest cacheSt tenant_id question chunk_ids with
      | some cached =>
        (.success { answer := cached.answer, sources := cached.sources,
                    confidence := cached.confidence,
                    insufficient_context := cached.insufficient_context,
                    cached := true }, rl.2, cacheSt)
      | none =>
        let result :=
          if chunks.isEmpty then
            { answer := none, sources := [], confidence := 0,
              insufficient_context := true : ResponseDict }
          else
            synth question tenant_name chunks
        let cacheSt2 := cache_response now digest cacheSt tenant_id question
          chunk_ids result none
        (.success { answer := result.answer, sources := result.sources,
                    confidence := result.confidence,
                    insufficient_context := result.insufficient_context,
                    cached := false }, rl.2, cacheSt2)

/-! ## Decimal representation: `Nat.repr` is injective

Needed because the rate-limit key embeds the window number via string
formatting: distinct windows must yield distinct keys. -/

theorem toDigitsCore_eq_digits (b f n : Nat) (l : List Char) (hb : 1 < b)
    (h0 : 0 < n) (hf : n ≤ f) :
    Nat.toDigitsCore b f n l =
      ((Nat.digits b n).map Nat.digitChar).reverse ++ l := by
  induction f generalizing n l with
  | zero => omega
  | succ f ih =>
    rw [Nat.toDigitsCore]
    by_cases hdiv : n / b = 0
    · have hnb : n < b := (Nat.div_eq_zero_iff (by omega)).mp hdiv
      rw [hdiv]
      simp only [if_pos rfl]
      rw [Nat.digits_def' hb h0, hdiv, Nat.digits_zero]
      simp
    · rw [if_neg hdiv]
      have hlt : n / b < n := Nat.div_lt_self h0 hb
      have hpos : 0 < n / b := Nat.pos_of_ne_zero hdiv
      have := ih (n / b) (Nat.digitChar (n % b) :: l) hpos (by omega)
      rw [this]
      rw [Nat.digits_def' hb h0]
      simp [List.append_assoc]

theorem toDigits_eq_digits (b n : Nat) (hb : 1 < b) (h0 : 0 < n) :
    Nat.toDigits b n = ((Nat.digits b n).map Nat.digitChar).reverse := by
  rw [Nat.toDigits, toDigitsCore_eq_digits b (n + 1) n [] hb h0 (by omega)]
  simp

theorem digitChar_inj_fin : ∀ m n : Fin 10,
    Nat.digitChar m.val = Nat.digitChar n.val → m.val = n.val := by
  decide

theorem digitChar_inj_lt (m n : Nat) (hm : m < 10) (hn : n < 10)
    (h : Nat.digitChar m = Nat.digitChar n) : m = n :=
  digitChar_inj_fin ⟨m, hm⟩ ⟨n, hn⟩ h

theorem map_digitChar_inj : ∀ ds1 ds2 : List Nat,
    (∀ d ∈ ds1, d < 10) → (∀ d ∈ ds2, d < 10) →
    ds1.map Nat.digitChar = ds2.map Nat.digitChar → ds1 = ds2 := by
  intro ds1
  induction ds1 with
  | nil => intro ds2 _ _ h; cases ds2 <;> simp_all
  | cons d tl ih =>
    intro ds2 h1 h2 h
    cases ds2 with
    | nil => simp_all
    | cons d' tl' =>
      simp only [List.map_cons, List.cons.injEq] at h
      have hd : d = d' :=
        digitChar_inj_lt d d' (h1 d (by simp)) (h2 d' (by simp)) h.1
      have ht : tl = tl' :=
        ih tl' (fun x hx => h1 x (by simp [hx])) (fun x hx => h2 x (by simp [hx])) h.2
      rw [hd, ht]

theorem digits_ten_eq_of_toDigits_eq {m n : Nat}
    (h : Nat.toDigits 10 m = Nat.toDigits 10 n) (hm : 0 < m) (hn : 0 < n) :
    Nat.digits 10 m = Nat.digits 10 n := by
  rw [toDigits_eq_digits 10 m (by omega) hm, toDigits_eq_digits 10 n (by omega) hn] at h
  have h2 := congrArg List.reverse h
  simp only [List.reverse_reverse] at h2
  exact map_digitChar_inj _ _
    (fun d hd => Nat.digits_lt_base (by omega) hd)
    (fun d hd => Nat.digits_lt_base (by omega) hd) h2

theorem Nat.repr_injective : Function.Injective Nat.repr := by
  intro m n h
  have hchars : Nat.toDigits 10 m = Nat.toDigits 10 n := by
    have := congrArg String.data h
    simpa [Nat.repr, List.asString] using this
  rcases Nat.eq_zero_or_pos m with hm | hm
  · rcases Nat.eq_zero_or_pos n with hn | hn
    · omega
    · exfalso
      subst hm
      have hz : Nat.toDigits 10 0 = [ '0'] := rfl
      rw [hz] at hchars
      have hd : Nat.digits 10 n = [0] := by
        have h2 := congrArg List.reverse hchars.symm
        rw [toDigits_eq_digits 10 n (by omega) hn] at h2
        simp only [List.reverse_reverse] at h2
        have : Nat.digits 10 n = [0] :=
          map_digitChar_inj _ [0]
            (fun d hd => Nat.digits_lt_base (by omega) hd)
            (by simp) (by simpa using h2)
        exact this
      have := Nat.ofDigits_digits 10 n
      rw [hd] at this
      simp [Nat.ofDigits] at this
      omega
  · rcases Nat.eq_zero_or_pos n with hn | hn
    · exfalso
      subst hn
      have hz : Nat.toDigits 10 0 = [ '0'] := rfl
      rw [hz] at hchars
      have hd : Nat.digits 10 m = [0] := by
        have h2 := congrArg List.reverse hchars
        rw [toDigits_eq_digits 10 m (by omega) hm] at h2
        simp only [List.reverse_reverse] at h2
        have : Nat.digits 10 m = [0] :=
          map_digitChar_inj _ [0]
            (fun d hd => Nat.digits_lt_base (by omega) hd)
            (by simp) (by simpa using h2)
        exact this
      have := Nat.ofDigits_digits 10 m
      rw [hd] at this
      simp [Nat.ofDigits] at this
      omega
    · have hd := digits_ten_eq_of_toDigits_eq hchars hm hn
      have h1 := Nat.ofDigits_digits 10 m
      have h2 := Nat.ofDigits_digits 10 n
      rw [hd] at h1
      rw [h2] at h1
      exact h1.symm

/-- Distinct windows give distinct rate-limit keys (for the same tenant and
operation). -/
theorem rlKey_inj_window (tenant_id operation : String) {w w' : Nat}
    (h : w ≠ w') : rlKey tenant_id operation w ≠ rlKey tenant_id operation w' := by
  intro he
  apply h
  apply Nat.repr_injective
  have := congrArg String.data he
  simp only [rlKey, String.data_append] at this
  apply String.ext
  have h2 : ("ratelimit:" ++ tenant_id ++ ":" ++ operation ++ ":").data ++
        (Nat.repr w).data =
      ("ratelimit:" ++ tenant_id ++ ":" ++ operation ++ ":").data ++
        (Nat.repr w').data := by
    simpa [String.data_append, List.append_assoc] using this
  exact List.append_cancel_left h2

/-! ## Claim theorems -/

/-! ### C2 — tenant-to-partition-name mapping -/

/-- C2 (counterexample): `_get_collection_name` is NOT injective on all
distinct tenant identifiers: it truncates the hyphen-stripped id to 16
characters, so two 17-character tenant ids sharing a 16-character prefix
collide. -/
theorem get_collection_name_not_injective :
    ("aaaaaaaaaaaaaaaab" : String) ≠ ("aaaaaaaaaaaaaaaac" : String) ∧
    get_collection_name ("aaaaaaaaaaaaaaaab") =
      get_collection_name ("aaaaaaaaaaaaaaaac") := by
  exact ⟨by decide, rfl⟩

/-- C2 (amended): the partition name is derived deterministically from the
tenant identifier alone, and tenants whose hyphen-stripped identifiers differ
within their first 16 characters get distinct partition names; tenants
agreeing on that prefix share a partition name. -/
theorem get_collection_name_inj_on_short_prefix (t1 t2 : String)
    (h : (t1.data.filter (fun c => c ≠ '-')).take 16 ≠
         (t2.data.filter (fun c => c ≠ '-')).take 16) :
    get_collection_name t1 ≠ get_collection_name t2 := by
  intro he
  apply h
  have h2 : ("tenant_" : String).data ++
      ((t1.data.filter (fun c => c ≠ '-')).take 16 ++ ("_documents" : String).data) =
      ("tenant_" : String).data ++
      ((t2.data.filter (fun c => c ≠ '-')).take 16 ++ ("_documents" : String).data) := by
    simpa [get_collection_name, String.data_append, List.append_assoc]
      using congrArg String.data he
  exact List.append_cancel_right (List.append_cancel_left h2)

/-- Witness for `get_collection_name_inj_on_short_prefix`. -/
theorem get_collection_name_inj_on_short_prefix_witness :
    (("a" : String).data.filter (fun c => c ≠ '-')).take 16 ≠
      (("b" : String).data.filter (fun c => c ≠ '-')).take 16 ∧
    get_collection_name ("a") ≠ get_collection_name ("b") :=
  ⟨by decide, get_collection_name_inj_on_short_prefix ("a") ("b") (by decide)⟩

/-! ### C9 — missing partition -/

/-- C9: if the tenant's collection does not exist in the index, `search`
returns an empty list and raises nothing, for every index query function
(no similarity query is consulted). -/
theorem search_missing_collection (idx : SimilarityIndex) (tenant_id : String)
    (query_vector : List ℚ) (top_k : Nat) (score_threshold : ℚ)
    (h : get_collection_name tenant_id ∉ idx.collections) :
    VectorStore.search idx tenant_id query_vector top_k score_threshold = .ok [] := by
  simp [VectorStore.search, h]

/-- Witness for `search_missing_collection`. -/
theorem search_missing_collection_witness :
    get_collection_name ("t") ∉ (([] : List String)) ∧
    VectorStore.search ⟨[], fun _ _ _ _ => []⟩ ("t") [] 5 (7/10) = .ok [] :=
  ⟨by simp, search_missing_collection ⟨[], fun _ _ _ _ => []⟩ ("t") [] 5 (7/10) (by simp)⟩

/-! ### C1 — tenant isolation in search -/

theorem searchLoop_error_of_bad (tenant_id : String) (l : List ScoredPoint)
    (h : ∃ r ∈ l, r.tenant_id ≠ some tenant_id) :
    searchLoop tenant_id l = .error ("Tenant isolation violation detected") := by
  induction l with
  | nil => simp at h
  | cons r rest ih =>
    rw [searchLoop]
    by_cases hr : r.tenant_id ≠ some tenant_id
    · rw [if_pos hr]
    · rw [if_neg hr]
      have hrest : ∃ x ∈ rest, x.tenant_id ≠ some tenant_id := by
        rcases h with ⟨x, hx, hxt⟩
        rcases List.mem_cons.mp hx with h1 | h1
        · exact absurd (h1 ▸ hxt) hr
        · exact ⟨x, h1, hxt⟩
      rw [ih hrest]

theorem searchLoop_ok_of_good (tenant_id : String) (l : List ScoredPoint)
    (h : ∀ r ∈ l, r.tenant_id = some tenant_id) :
    searchLoop tenant_id l = .ok (l.map toSearchChunk) := by
  induction l with
  | nil => rfl
  | cons r rest ih =>
    rw [searchLoop]
    have hr : r.tenant_id = some tenant_id := h r (by simp)
    rw [if_neg (by simp [hr])]
    rw [ih (fun x hx => h x (by simp [hx]))]
    simp

theorem searchLoop_ok_inv (tenant_id : String) (l : List ScoredPoint)
    (cs : List SearchChunk) (h : searchLoop tenant_id l = .ok cs) :
    (∀ r ∈ l, r.tenant_id = some tenant_id) ∧ cs = l.map toSearchChunk := by
  induction l generalizing cs with
  | nil =>
    rw [searchLoop] at h
    simp at h
    simp [h]
  | cons r rest ih =>
    rw [searchLoop] at h
    by_cases hr : r.tenant_id ≠ some tenant_id
    · rw [if_pos hr] at h
      exact absurd h (by simp)
    · rw [if_neg hr] at h
      push_neg at hr
      cases hrest : searchLoop tenant_id rest with
      | ok cs' =>
        rw [hrest] at h
        simp only [Except.ok.injEq] at h
        have := ih cs' hrest
        constructor
        · intro x hx
          rcases List.mem_cons.mp hx with h1 | h1
          · exact h1 ▸ hr
          · exact this.1 x h1
        · rw [← h, this.2]
          simp
      | error e =>
        rw [hrest] at h
        exact absurd h (by simp)

/-- C1: when the tenant's collection exists and the underlying index returns
`results`, `search` (a) raises the security fault if any returned record's
stored `tenant_id` differs from the requesting tenant, (b) returns all the
records (converted to chunk dicts) and raises nothing when every record's
`tenant_id` matches, and (c) every fragment in a successfully returned list
comes from a record whose stored `tenant_id` equals the requesting tenant —
a cross-tenant fragment never appears in the result. -/
theorem search_tenant_isolation (idx : SimilarityIndex) (tenant_id : String)
    (query_vector : List ℚ) (top_k : Nat) (score_threshold : ℚ)
    (results : List ScoredPoint)
    (hmem : get_collection_name tenant_id ∈ idx.collections)
    (hres : idx.query (get_collection_name tenant_id) query_vector top_k
      score_threshold = results) :
    ((∃ r ∈ results, r.tenant_id ≠ some tenant_id) →
      VectorStore.search idx tenant_id query_vector top_k score_threshold =
        .error ("Tenant isolation violation detected")) ∧
    ((∀ r ∈ results, r.tenant_id = some tenant_id) →
      VectorStore.search idx tenant_id query_vector top_k score_threshold =
        .ok (results.map toSearchChunk)) ∧
    (∀ cs, VectorStore.search idx tenant_id query_vector top_k score_threshold =
        .ok cs →
      ∀ c ∈ cs, ∃ r ∈ results, r.tenant_id = some tenant_id ∧ c = toSearchChunk r) := by
  have hunfold : VectorStore.search idx tenant_id query_vector top_k score_threshold =
      searchLoop tenant_id results := by
    simp [VectorStore.search, hmem, hres]
  refine ⟨?_, ?_, ?_⟩
  · intro hbad
    rw [hunfold]
    exact searchLoop_error_of_bad tenant_id results hbad
  · intro hgood
    rw [hunfold]
    exact searchLoop_ok_of_good tenant_id results hgood
  · intro cs hok c hc
    rw [hunfold] at hok
    have hinv := searchLoop_ok_inv tenant_id results cs hok
    rw [hinv.2] at hc
    rcases List.mem_map.mp hc with ⟨r, hr, hrc⟩
    exact ⟨r, hr, hinv.1 r hr, hrc.symm⟩

/-- Witness for `search_tenant_isolation`: one index whose query leaks a
foreign-tenant record (search raises), one whose records all belong to the
tenant (search returns them all). -/
theorem search_tenant_isolation_witness :
    VectorStore.search
        ⟨[get_collection_name ("t1")],
         fun _ _ _ _ => [⟨some ("t2"), "d", "n", "x", 0, 1⟩]⟩
        ("t1") [] 5 (7/10) =
      .error ("Tenant isolation violation detected") ∧
    VectorStore.search
        ⟨[get_collection_name ("t1")],
         fun _ _ _ _ => [⟨some ("t1"), "d", "n", "x", 0, 1⟩]⟩
        ("t1") [] 5 (7/10) =
      .ok [toSearchChunk ⟨some ("t1"), "d", "n", "x", 0, 1⟩] :=
  ⟨(search_tenant_isolation _ ("t1") [] 5 (7/10) _ (by simp) rfl).1
      ⟨⟨some ("t2"), "d", "n", "x", 0, 1⟩, by simp, by decide⟩,
   (search_tenant_isolation _ ("t1") [] 5 (7/10) _ (by simp) rfl).2.1
      (by intro r hr; simp at hr; simp [hr])⟩

/-! ### C6 — cache key sort-invariance -/

theorem mergeSort_eq_of_perm {l1 l2 : List String} (h : l1.Perm l2) :
    l1.mergeSort (fun a b => a ≤ b) = l2.mergeSort (fun a b => a ≤ b) := by
  have s1 : List.Sorted (fun a b => a ≤ b) (l1.mergeSort (fun a b => a ≤ b)) :=
    List.sorted_mergeSort' l1
  have s2 : List.Sorted (fun a b => a ≤ b) (l2.mergeSort (fun a b => a ≤ b)) :=
    List.sorted_mergeSort' l2
  exact List.eq_of_perm_of_sorted
    (((List.mergeSort_perm l1 _).trans h).trans (List.mergeSort_perm l2 _).symm) s1 s2

/-- C6: the derived cache key is invariant under permutation of the fragment
id list (for every digest function, tenant and question) — in particular
`key(t, q, [a, b]) = key(t, q, [b, a])`. -/
theorem cache_key_perm_invariant (digest : String → String)
    (tenant_id question : String) (l1 l2 : List String) (h : l1.Perm l2) :
    generate_cache_key digest tenant_id question l1 =
      generate_cache_key digest tenant_id question l2 := by
  unfold generate_cache_key cacheKeyContent
  rw [mergeSort_eq_of_perm h]

/-- Witness for `cache_key_perm_invariant`: the `[a,b]` / `[b,a]` instance. -/
theorem cache_key_perm_invariant_witness :
    generate_cache_key (fun s => s) ("t") ("q") ["a", "b"] =
      generate_cache_key (fun s => s) ("t") ("q") ["b", "a"] :=
  cache_key_perm_invariant (fun s => s) ("t") ("q") ["a", "b"] ["b", "a"]
    (List.Perm.swap ("b") ("a") [])

/-! ### C10 — cache key collisions across (question, fragment_ids) -/

theorem cacheKeyContent_nil_eval :
    cacheKeyContent ("t") ("q:a") [] = ("t:q:a:") := by
  unfold cacheKeyContent
  rw [List.mergeSort_nil]
  decide

theorem cacheKeyContent_single_eval (x : String) :
    cacheKeyContent ("t") ("q") [x] = ("t:q:") ++ x := by
  unfold cacheKeyContent
  rw [List.mergeSort_singleton]
  apply String.ext
  simp [String.intercalate, String.intercalate.go, String.data_append]

theorem cacheKeyContent_single_eval2 (x : String) :
    cacheKeyContent ("t") ("q:a") [x] = ("t:q:a:") ++ x := by
  unfold cacheKeyContent
  rw [List.mergeSort_singleton]
  apply String.ext
  simp [String.intercalate, String.intercalate.go, String.data_append]

/-- C10 (counterexample): the example pair named in the claim does NOT
collide: `q1 = "q:a"` with `ids1 = []` yields the pre-hash concatenation
`"t:q:a:"` while `q2 = "q"` with `ids2 = ["a"]` yields `"t:q:a"` — they
differ (by a trailing delimiter), so the claim is false as stated at that
input. -/
theorem cache_key_claimed_example_differs :
    cacheKeyContent ("t") ("q:a") [] ≠ cacheKeyContent ("t") ("q") ["a"] := by
  rw [cacheKeyContent_nil_eval, cacheKeyContent_single_eval]
  decide

/-- C10 (amended): the key derivation is still not injective in
`(question, fragment_ids)` for a fixed tenant: the ':' delimiter also occurs
inside joined fields, so `q1 = "q"` with `ids1 = ["a:b"]` and `q2 = "q:a"`
with `ids2 = ["b"]` produce the same pre-hash concatenation, hence the same
key for every digest, and an answer cached for one is returned by `get` for
the other. -/
theorem cache_key_collision :
    ((("q" : String), (["a:b"] : List String)) ≠ (("q:a" : String), (["b"] : List String))) ∧
    cacheKeyContent ("t") ("q") ["a:b"] = cacheKeyContent ("t") ("q:a") ["b"] ∧
    (∀ digest : String → String,
      generate_cache_key digest ("t") ("q") ["a:b"] =
        generate_cache_key digest ("t") ("q:a") ["b"]) ∧
    get_cached_response 0 (fun s => s)
        (cache_response 0 (fun s => s) [] ("t") ("q") ["a:b"]
          { answer := some ("ans"), sources := [], confidence := 95/100,
            insufficient_context := false } none)
        ("t") ("q:a") ["b"] =
      some { answer := some ("ans"), sources := [], confidence := 95/100,
             insufficient_context := false } := by
  have hc : cacheKeyContent ("t") ("q") ["a:b"] = cacheKeyContent ("t") ("q:a") ["b"] := by
    rw [cacheKeyContent_single_eval, cacheKeyContent_single_eval2]
    decide
  have hkeys : ∀ digest : String → String,
      generate_cache_key digest ("t") ("q") ["a:b"] =
        generate_cache_key digest ("t") ("q:a") ["b"] := by
    intro digest
    unfold generate_cache_key
    rw [hc]
  refine ⟨by decide, hc, hkeys, ?_⟩
  have hconf : ¬ ((95 : ℚ)/100 < 7/10) := by norm_num
  have hkw : keywordHit ("q") = false := by decide
  unfold cache_response
  rw [if_neg hconf]
  simp only [Bool.false_eq_true, if_false, hkw]
  unfold get_cached_response redisGet
  rw [hkeys (fun s => s)]
  simp [settings]

/-! ### C4 — cache admission policy -/

/-- The effective TTL chosen by `cache_response`
(`ttl or settings.cache_ttl_seconds`). -/
def effectiveTtl (ttl : Option Nat) : Nat :=
  match ttl with
  | none => settings.cache_ttl_seconds
  | some v => if v = 0 then settings.cache_ttl_seconds else v

/-- C4: `cache_response` silently leaves the store unchanged whenever the
response's confidence is below 0.7, or its `insufficient_context` flag is
set, or the lowercased question contains a time-sensitive or personal
marker; otherwise it stores the response under the derived key with the
given TTL (default `settings.cache_ttl_seconds`), and a `get` with the same
inputs at any time before the TTL deadline returns exactly that response. -/
theorem cache_admission (digest : String → String) (now : Nat) (st : CacheStore)
    (tenant_id question : String) (chunk_ids : List String)
    (response : ResponseDict) (ttl : Option Nat) :
    ((response.confidence < 7/10 ∨ response.insufficient_context = true ∨
        keywordHit question = true) →
      cache_response now digest st tenant_id question chunk_ids response ttl = st) ∧
    (¬ response.confidence < 7/10 → response.insufficient_context = false →
      keywordHit question = false →
      cache_response now digest st tenant_id question chunk_ids response ttl =
        (generate_cache_key digest tenant_id question chunk_ids, response,
          now + effectiveTtl ttl) :: st ∧
      (∀ now2, now2 < now + effectiveTtl ttl →
        get_cached_response now2 digest
          (cache_response now digest st tenant_id question chunk_ids response ttl)
          tenant_id question chunk_ids = some response)) := by
  constructor
  · intro h
    unfold cache_response
    rcases h with h | h | h
    · rw [if_pos h]
    · by_cases hc : response.confidence < 7/10
      · rw [if_pos hc]
      · rw [if_neg hc, h]
        simp
    · by_cases hc : response.confidence < 7/10
      · rw [if_pos hc]
      · rw [if_neg hc]
        by_cases hi : response.insufficient_context = true
        · simp [hi]
        · simp only [Bool.not_eq_true] at hi
          simp [hi, h]
  · intro hc hi hk
    have hstore : cache_response now digest st tenant_id question chunk_ids response ttl =
        (generate_cache_key digest tenant_id question chunk_ids, response,
          now + effectiveTtl ttl) :: st := by
      unfold cache_response
      rw [if_neg hc, hi, hk]
      simp [effectiveTtl]
    refine ⟨hstore, ?_⟩
    intro now2 hlt
    rw [get_cached_response, hstore, redisGet]
    rw [if_pos rfl, if_pos hlt]

/-- Witness for `cache_admission`: confidence 0.69 is never stored; the
question "What is my vacation policy?" at confidence 0.9 is never stored
(personal marker "my"); confidence 0.95 with a neutral question is stored
and retrievable just before its TTL deadline. -/
theorem cache_admission_witness :
    cache_response 0 (fun s => s) [] ("t") ("vacation policy") ["d1"]
      { answer := some ("a"), sources := [], confidence := 69/100,
        insufficient_context := false } none = [] ∧
    cache_response 0 (fun s => s) [] ("t") ("What is my vacation policy?") ["d1"]
      { answer := some ("a"), sources := [], confidence := 9/10,
        insufficient_context := false } none = [] ∧
    get_cached_response 3599 (fun s => s)
      (cache_response 0 (fun s => s) [] ("t") ("vacation policy") ["d1"]
        { answer := some ("a"), sources := [], confidence := 95/100,
          insufficient_context := false } none)
      ("t") ("vacation policy") ["d1"] =
      some { answer := some ("a"), sources := [], confidence := 95/100,
             insufficient_context := false } := by
  refine ⟨?_, ?_, ?_⟩
  · exact (cache_admission (fun s => s) 0 [] ("t") ("vacation policy") ["d1"]
      { answer := some ("a"), sources := [], confidence := 69/100,
        insufficient_context := false } none).1 (Or.inl (by norm_num))
  · exact (cache_admission (fun s => s) 0 [] ("t") ("What is my vacation policy?") ["d1"]
      { answer := some ("a"), sources := [], confidence := 9/10,
        insufficient_context := false } none).1 (Or.inr (Or.inr (by decide)))
  · exact ((cache_admission (fun s => s) 0 [] ("t") ("vacation policy") ["d1"]
      { answer := some ("a"), sources := [], confidence := 95/100,
        insufficient_context := false } none).2 (by norm_num) rfl (by decide)).2
      3599 (by simp [effectiveTtl, settings])

/-! ### C3 — empty retrieval short-circuits synthesis -/

/-- C3: (a) when the rate check passes, retrieval returns zero fragments and
there is no cache hit, the orchestrator returns `insufficient_context = true`
with `confidence = 0` (uncached), for every synthesis function; (b) the
orchestrator's behaviour depends on the synthesis function only at non-empty
context lists — synthesis is never invoked with an empty context. -/
theorem orchestrator_empty_retrieval (now : Nat) (digest : String → String)
    (idx : SimilarityIndex) (embed : String → List ℚ)
    (rlSt : RlStore) (cacheSt : CacheStore)
    (tenant_id tenant_name question : String) :
    (∀ synth,
      (check_rate_limit now settings.queries_per_minute rlSt tenant_id ("query")).1 = true →
      VectorStore.search idx tenant_id (embed question) settings.top_k_chunks
        settings.similarity_threshold = .ok [] →
      get_cached_response now digest cacheSt tenant_id question [] = none →
      (query_knowledge_base now digest idx embed synth rlSt cacheSt
          tenant_id tenant_name question).1 =
        .success { answer := none, sources := [], confidence := 0,
                   insufficient_context := true, cached := false }) ∧
    (∀ synth synth2,
      (∀ q tn cs, cs ≠ [] → synth q tn cs = synth2 q tn cs) →
      query_knowledge_base now digest idx embed synth rlSt cacheSt
          tenant_id tenant_name question =
        query_knowledge_base now digest idx embed synth2 rlSt cacheSt
          tenant_id tenant_name question) := by
  constructor
  · intro synth hrl hsearch hcache
    simp only [query_knowledge_base]
    rw [hrl, hsearch]
    simp only [Bool.not_true, Bool.false_eq_true, if_false, List.map_nil]
    rw [hcache]
    simp
  · intro synth synth2 hagree
    simp only [query_knowledge_base]
    cases hrl : (check_rate_limit now settings.queries_per_minute rlSt
        tenant_id ("query")).1 with
    | false => simp
    | true =>
      simp only [Bool.not_true, Bool.false_eq_true, if_false]
      cases hsearch : VectorStore.search idx tenant_id (embed question)
          settings.top_k_chunks settings.similarity_threshold with
      | error e => simp
      | ok chunks =>
        cases hcache : get_cached_response now digest cacheSt tenant_id question
            (chunks.map (fun c => c.document_id)) with
        | some cached => simp [hcache]
        | none =>
          simp only [hcache]
          by_cases hchunks : chunks = []
          · simp [hchunks]
          · simp [List.isEmpty_eq_true, hchunks,
              hagree question tenant_name chunks hchunks]

/-- Witness for `orchestrator_empty_retrieval`: a fresh tenant (no
collection, empty stores) gets the insufficient-context result, and two
synthesis functions agreeing on non-empty contexts yield identical runs. -/
theorem orchestrator_empty_retrieval_witness :
    (query_knowledge_base 0 (fun s => s) ⟨[], fun _ _ _ _ => []⟩ (fun _ => [])
        (fun _ _ _ => ResponseDict.mk (some ("x")) [] 1 false)
        [] [] ("t") ("T") ("q")).1 =
      .success { answer := none, sources := [], confidence := 0,
                 insufficient_context := true, cached := false } ∧
    query_knowledge_base 0 (fun s => s) ⟨[], fun _ _ _ _ => []⟩ (fun _ => [])
        (fun _ _ _ => ResponseDict.mk (some ("x")) [] 1 false)
        [] [] ("t") ("T") ("q") =
      query_knowledge_base 0 (fun s => s) ⟨[], fun _ _ _ _ => []⟩ (fun _ => [])
        (fun _ _ cs =>
          if cs = [] then ResponseDict.mk (some ("y")) [] 1 false
          else ResponseDict.mk (some ("x")) [] 1 false)
        [] [] ("t") ("T") ("q") := by
  constructor
  · exact (orchestrator_empty_retrieval 0 (fun s => s) ⟨[], fun _ _ _ _ => []⟩
      (fun _ => []) [] [] ("t") ("T") ("q")).1 _ (by decide)
      (by simp [VectorStore.search]) rfl
  · exact (orchestrator_empty_retrieval 0 (fun s => s) ⟨[], fun _ _ _ _ => []⟩
      (fun _ => []) [] [] ("t") ("T") ("q")).2 _ _
      (by
        intro q tn cs hne
        simp [hne])

/-! ### C5 — fixed-window rate limiting -/

theorem check_rate_limit_first (now limit : Nat) (tenant_id operation : String) :
    check_rate_limit now limit [] tenant_id operation =
      (decide (1 ≤ limit), [(rlKey tenant_id operation (now / 60), 1, some (now + 60))]) := by
  simp [check_rate_limit, rlIncr, rlExpire]

theorem check_rate_limit_live (now limit : Nat) (tenant_id operation : String)
    (w c d : Nat) (hw : now / 60 = w) (hd : ¬ d ≤ now) (hc : 1 ≤ c) :
    check_rate_limit now limit [(rlKey tenant_id operation w, c, some d)]
        tenant_id operation =
      (decide (c + 1 ≤ limit), [(rlKey tenant_id operation w, c + 1, some d)]) := by
  have h1 : ¬ (c + 1 = 1) := by omega
  simp [check_rate_limit, rlIncr, hw, hd, h1]

theorem check_rate_limit_other_key (now limit : Nat) (tenant_id operation : String)
    (k : String) (c : Nat) (dl : Option Nat)
    (hk : ¬ k = rlKey tenant_id operation (now / 60)) :
    (check_rate_limit now limit [(k, c, dl)] tenant_id operation).1 =
      decide (1 ≤ limit) := by
  simp [check_rate_limit, rlIncr, hk, rlExpire]

/-- The allow/deny pattern of successive calls against a counter already at
`c`: call `i` (0-based) is allowed iff `c + i + 1 ≤ limit`. -/
def expectedFlags (limit c : Nat) : Nat → List Bool
  | 0 => []
  | n + 1 => decide (c + 1 ≤ limit) :: expectedFlags limit (c + 1) n

theorem expectedFlags_getElem (limit c n k : Nat) (h : k < n) :
    (expectedFlags limit c n)[k]? = some (decide (c + k + 1 ≤ limit)) := by
  induction n generalizing c k with
  | zero => omega
  | succ n ih =>
    cases k with
    | zero => simp [expectedFlags]
    | succ k =>
      rw [expectedFlags]
      rw [show c + (k + 1) + 1 = c + 1 + k + 1 by omega]
      simpa using ih (c + 1) k (by omega)

theorem rlRun_steady (limit : Nat) (tenant_id operation : String) (w c d : Nat)
    (ts : List Nat) (hw : ∀ t ∈ ts, t / 60 = w) (hd : ∀ t ∈ ts, t < d)
    (hc : 1 ≤ c) :
    rlRun limit tenant_id operation ts [(rlKey tenant_id operation w, c, some d)] =
      (expectedFlags limit c ts.length,
       [(rlKey tenant_id operation w, c + ts.length, some d)]) := by
  induction ts generalizing c with
  | nil => simp [rlRun, expectedFlags]
  | cons t ts ih =>
    rw [rlRun]
    rw [check_rate_limit_live t limit tenant_id operation w c d
      (hw t (by simp)) (by have := hd t (by simp); omega) hc]
    rw [ih (c + 1) (fun x hx => hw x (List.mem_cons_of_mem t hx))
      (fun x hx => hd x (List.mem_cons_of_mem t hx)) (by omega)]
    simp only [expectedFlags, List.length_cons]
    rw [show c + (ts.length + 1) = c + 1 + ts.length by omega]

/-- C5: starting from an empty store, for calls at times `t1 :: ts` all inside
the fixed window `w = ⌊t/60⌋`: (a) the `k`-th call (0-based) is allowed iff
`k + 1 ≤ limit` — so with the configured limit the `limit`-th call is allowed
and the `(limit+1)`-th is denied; (b) afterwards the store holds exactly one
counter for that window's key, equal to the number of calls, whose expiry was
set 60 seconds after the FIRST call of the window and never touched again;
(c) a call in any other window is allowed again (for a positive limit). -/
theorem rate_limit_fixed_window (limit : Nat) (tenant_id operation : String)
    (t1 : Nat) (ts : List Nat) (w : Nat) (hw1 : t1 / 60 = w)
    (hw : ∀ t ∈ ts, t / 60 = w) :
    (∀ k, k < ts.length + 1 →
      ((rlRun limit tenant_id operation (t1 :: ts) []).1)[k]? =
        some (decide (k + 1 ≤ limit))) ∧
    (rlRun limit tenant_id operation (t1 :: ts) []).2 =
      [(rlKey tenant_id operation w, ts.length + 1, some (t1 + 60))] ∧
    (∀ t2, t2 / 60 ≠ w → 1 ≤ limit →
      (check_rate_limit t2 limit
          (rlRun limit tenant_id operation (t1 :: ts) []).2
          tenant_id operation).1 = true) := by
  have hrun : rlRun limit tenant_id operation (t1 :: ts) [] =
      (decide (1 ≤ limit) :: expectedFlags limit 1 ts.length,
       [(rlKey tenant_id operation w, 1 + ts.length, some (t1 + 60))]) := by
    rw [rlRun, check_rate_limit_first, hw1]
    rw [rlRun_steady limit tenant_id operation w 1 (t1 + 60) ts hw
      (by
        intro t ht
        have h1 := hw t ht
        omega) (by omega)]
  refine ⟨?_, ?_, ?_⟩
  · intro k hk
    rw [hrun]
    cases k with
    | zero => simp
    | succ k =>
      simp only [List.getElem?_cons_succ]
      rw [expectedFlags_getElem limit 1 ts.length k (by omega)]
      rw [show k + 1 + 1 = 1 + k + 1 by omega]
  · rw [hrun]
    simp [Nat.add_comm]
  · intro t2 hne hlim
    rw [hrun]
    rw [check_rate_limit_other_key t2 limit tenant_id operation _ _ _
      (rlKey_inj_window tenant_id operation (fun h => hne (h ▸ rfl)))]
    simp [hlim]

/-- Witness for `rate_limit_fixed_window`: with the configured limit of 10
per minute, eleven calls in minute-window 2 — the 10th (index 9) allowed,
the 11th (index 10) denied — and a 12th call in window 3 allowed again. -/
theorem rate_limit_fixed_window_witness :
    ((rlRun settings.queries_per_minute ("t") ("query")
        (120 :: List.replicate 10 120) []).1)[9]? = some true ∧
    ((rlRun settings.queries_per_minute ("t") ("query")
        (120 :: List.replicate 10 120) []).1)[10]? = some false ∧
    (check_rate_limit 180 settings.queries_per_minute
        (rlRun settings.queries_per_minute ("t") ("query")
          (120 :: List.replicate 10 120) []).2 ("t") ("query")).1 = true := by
  have h := rate_limit_fixed_window settings.queries_per_minute ("t") ("query")
    120 (List.replicate 10 120) 2 (by decide)
    (by
      intro t ht
      rw [List.eq_of_mem_replicate ht])
  refine ⟨?_, ?_, ?_⟩
  · have := h.1 9 (by simp)
    simpa [settings] using this
  · have := h.1 10 (by simp)
    simpa [settings] using this
  · exact h.2.2 180 (by decide) (by decide)

/-! ### C7 — chunk counts at the boundaries -/

set_option maxRecDepth 10000 in
/-- C7 (counterexample): a 451-token text (non-empty, within the configured
`chunk_size` of 500) produces TWO chunks, not one: the loop strides by
`chunk_size - chunk_overlap = 450`, so a second (overlap-only) window starts
at token 450. -/
theorem chunk_text_two_chunks_at_451 :
    0 < (List.replicate 451 0).length ∧
    (List.replicate 451 0).length ≤ settings.chunk_size ∧
    (chunk_text (fun _ => ("")) (List.replicate 451 0)).length = 2 := by
  refine ⟨by decide, by decide, by decide⟩

/-- C7 (amended): empty token sequence → empty chunk list (no error), and a
non-empty text produces exactly one chunk iff its token count is at most
`chunk_size - chunk_overlap` (= 450 under the configured defaults; token
counts in 451..500 produce two chunks). -/
theorem chunk_text_empty_and_short (decode : List Nat → String)
    (tokens : List Nat) :
    (tokens = [] → chunk_text decode tokens = []) ∧
    (0 < tokens.length →
      tokens.length ≤ settings.chunk_size - settings.chunk_overlap →
      (chunk_text decode tokens).length = 1) := by
  constructor
  · intro h
    subst h
    rfl
  · intro h1 h2
    have h2x : tokens.length ≤ 450 := h2
    simp only [chunk_text, List.length_map, List.length_range]
    show (tokens.length + (500 - 50) - 1) / (500 - 50) = 1
    omega

set_option maxRecDepth 10000 in
/-- Witness for `chunk_text_empty_and_short`. -/
theorem chunk_text_empty_and_short_witness :
    chunk_text (fun _ => ("")) [] = [] ∧
    (chunk_text (fun _ => ("")) (List.replicate 450 0)).length = 1 :=
  ⟨(chunk_text_empty_and_short (fun _ => ("")) []).1 rfl,
   (chunk_text_empty_and_short (fun _ => ("")) (List.replicate 450 0)).2
     (by decide) (by decide)⟩

/-! ### C8 — sentence-boundary trimming -/

/-- A 500-character decoded window whose last sentence terminator sits at
character index 350 — exactly 70% of the window. -/
def win8 : String := String.mk (List.replicate 350 'a' ++ '.' :: List.replicate 149 'a')

def decode8 (ts : List Nat) : String := if ts.length = 500 then win8 else ("r")

def toks8 : List Nat := List.replicate 600 0

set_option maxRecDepth 20000 in
/-- C8 (counterexample): in a 600-token text the first window is not final
(there are two windows) and is trim-eligible (`0 + chunk_size < 600`), its
decoded text has its last '.' at index 350 — exactly 70% of the window — yet
the produced chunk text is the UNTRIMMED window: the source trims only on
`last_period > chunk_size * 0.7`, a strict inequality, so "at 70%" is kept
untrimmed, contradicting the claim's "at or after 70%". -/
theorem chunk_text_no_trim_at_exact_seventy :
    (chunk_text decode8 toks8).length = 2 ∧
    ((chunk_text decode8 toks8)[0]?).map Chunk.text = some win8 ∧
    rfindIdx win8.data '.' = some 350 ∧
    10 * 350 = 7 * settings.chunk_size ∧
    String.mk (win8.data.take 351) ≠ win8 := by
  refine ⟨by decide, by decide, by decide, rfl, by decide⟩

/-- C8 (amended): a window is trimmed iff its start `i = w * 450` satisfies
`i + chunk_size < total tokens` AND the last '.' of the decoded window sits
at a character index strictly greater than `0.7 * chunk_size`; every other
window — in particular every window with `i + chunk_size ≥ total`, which
includes the final one — is emitted untrimmed, with `token_count` the
untrimmed window length. -/
theorem chunk_text_trim_characterization (decode : List Nat → String)
    (tokens : List Nat) (w : Nat)
    (hw : w < (tokens.length + 449) / 450) :
    (chunk_text decode tokens)[w]? =
      some { text := if w * 450 + 500 < tokens.length
                     then sentence_trim 500 (decode ((tokens.drop (w * 450)).take 500))
                     else decode ((tokens.drop (w * 450)).take 500),
             index := w,
             token_count := ((tokens.drop (w * 450)).take 500).length } ∧
    (w = (tokens.length + 449) / 450 - 1 →
      ((chunk_text decode tokens)[w]?).map Chunk.text =
        some (decode ((tokens.drop (w * 450)).take 500))) := by
  have hget : (chunk_text decode tokens)[w]? =
      some { text := if w * 450 + 500 < tokens.length
                     then sentence_trim 500 (decode ((tokens.drop (w * 450)).take 500))
                     else decode ((tokens.drop (w * 450)).take 500),
             index := w,
             token_count := ((tokens.drop (w * 450)).take 500).length } := by
    have hb : ((tokens.length + (settings.chunk_size - settings.chunk_overlap) - 1) /
        (settings.chunk_size - settings.chunk_overlap)) = (tokens.length + 449) / 450 := rfl
    simp only [chunk_text]
    rw [hb, List.getElem?_map, List.getElem?_range hw]
    rfl
  refine ⟨hget, ?_⟩
  intro hlast
  have hcond : ¬ (w * 450 + 500 < tokens.length) := by omega
  rw [hget, if_neg hcond]
  rfl

set_option maxRecDepth 20000 in
/-- Witness for `chunk_text_trim_characterization`: the final window of a
451-token text is emitted untrimmed. -/
theorem chunk_text_trim_characterization_witness :
    (chunk_text (fun _ => ("x")) (List.replicate 451 0))[1]? =
      some { text := ("x"), index := 1, token_count := 1 } ∧
    ((chunk_text (fun _ => ("x")) (List.replicate 451 0))[1]?).map Chunk.text =
      some ("x") := by
  have h := chunk_text_trim_characterization (fun _ => ("x"))
    (List.replicate 451 0) 1 (by decide)
  constructor
  · rw [h.1]
    decide
  · rw [h.2 (by decide)]
